import Mathlib

set_option maxHeartbeats 1000000

/-!
Verification development for the WildernessEncounterSim repository
(`dice.py`, `table.py`, `wilderness_encounter_sim.py`).

The Python source is shallowly embedded: Python `int`s become `Int`/`Nat`,
Python floor division `//` becomes `Int.fdiv`, the process-wide random
generator becomes an explicit oracle `Rng : Nat → Int → Int` (call index and
requested sides, returning the draw) threaded through the code, and fallible
operations (list indexing, the bounded rejection-sampling loop) return
`Except`/`Option` values.
-/

/-! ## Decimal digit helpers (model of Python's int/str digit handling) -/

/-- Test that `c` is an ASCII decimal digit `0`-`9`. -/
def isDigitC (c : Char) : Bool := 48 ≤ c.toNat && c.toNat ≤ 57

/-- Test that `c` is an ASCII digit `1`-`9` (the regex class `[1-9]`). -/
def isPosDigit (c : Char) : Bool := 49 ≤ c.toNat && c.toNat ≤ 57

/-- Numeric value of a digit character. -/
def digitVal (c : Char) : Nat := c.toNat - 48

/-- Digit character for a value `0`-`9`. -/
def digitChar (d : Nat) : Char := Char.ofNat (48 + d)

/-- Greedily consume a leading run of decimal digits, folding them onto the
accumulator `acc`; returns the value and the unconsumed remainder. -/
def readNat (acc : Nat) : List Char → Nat × List Char
  | [] => (acc, [])
  | c :: rest => if isDigitC c then readNat (10 * acc + digitVal c) rest else (acc, c :: rest)

/-- Fold a digit string onto an accumulator (the value `int(...)` gives it). -/
def foldVal (acc : Nat) : List Char → Nat
  | [] => acc
  | c :: cs => foldVal (10 * acc + digitVal c) cs

/-- Decimal digit characters of `n`, most significant first, prepended to
`acc` (the digits Python's `str`/f-string formatting produces).  Structural
recursion on a fuel argument so the kernel can evaluate it; `natDigits`
supplies fuel `n`, which always suffices since a number shrinks by a factor
of 10 per emitted digit. -/
def natDigitsF : Nat → Nat → List Char → List Char
  | 0, n, acc => digitChar n :: acc
  | fuel + 1, n, acc =>
    if n < 10 then digitChar n :: acc
    else natDigitsF fuel (n / 10) (digitChar (n % 10) :: acc)

/-- Decimal digit characters of `n`. -/
def natDigits (n : Nat) : List Char := natDigitsF n n []

/-- Number of decimal digits of `n` (at least one). -/
def digitCount (n : Nat) : Nat :=
  if n < 10 then 1 else digitCount (n / 10) + 1
termination_by n
decreasing_by exact Nat.div_lt_self (by omega) (by omega)

/-! ## The Dice data model (`dice.py`, class `Dice`)

Fields `number`, `sides`, `multiplier`, `addition` as in the Python class.
The random generator is passed explicitly: an `Rng` maps (call index, sides)
to the drawn value; `ValidRng` is `random.randint(1, sides)`'s contract. -/

structure Dice where
  number : Nat
  sides : Nat
  multiplier : Int
  addition : Int
deriving DecidableEq, Repr

/-- Oracle for the shared random generator: argument 1 is a global call
counter, argument 2 the `sides` passed to `Dice.roll`. -/
def Rng : Type := Nat → Int → Int

/-- Contract of `random.randint(1, sides)`: when `1 ≤ sides`, every draw lies
in `[1, sides]`. -/
def ValidRng (rng : Rng) : Prop := ∀ i s, 1 ≤ s → 1 ≤ rng i s ∧ rng i s ≤ s

/-- Model of `Dice._adjust_roll`: apply multiplier/divisor and addend to a raw sum.
Python `//` is floor division, hence `Int.fdiv`. -/
def adjustRoll (d : Dice) (roll : Int) : Int :=
  (if 0 ≤ d.multiplier then roll * d.multiplier
   else (roll - 1).fdiv (-d.multiplier) + 1) + d.addition

/-- Sum of `n` successive draws (`Dice.roll(sides)` calls) starting at call
index `i`. -/
def sumDraws (rng : Rng) (sides : Int) (i : Nat) : Nat → Int
  | 0 => 0
  | n + 1 => rng i sides + sumDraws rng sides (i + 1) n

/-- Model of `Dice.roll_dice`: sum `number` draws of a `sides`-sided die, then adjust.
Returns the result and the advanced call index. -/
def rollDice (d : Dice) (rng : Rng) (i : Nat) : Int × Nat :=
  (adjustRoll d (sumDraws rng (d.sides : Int) i d.number), i + d.number)

/-- Model of `Dice.min_roll`. -/
def minRoll (d : Dice) : Int := adjustRoll d (d.number : Int)

/-- Model of `Dice.max_roll`. -/
def maxRoll (d : Dice) : Int := adjustRoll d ((d.number : Int) * (d.sides : Int))

/-- Model of `Dice.avg_roll` (Python `//` on ints is floor division). -/
def avgRoll (d : Dice) : Int := (minRoll d + maxRoll d).fdiv 2

/-! ## Formatting (`Dice.__str__`) -/

/-- Decimal string of a natural number. -/
def natStr (n : Nat) : String := String.mk (natDigits n)

/-- Python `str` of an integer. -/
def intStr (i : Int) : String :=
  if i < 0 then "-" ++ natStr (-i).toNat else natStr i.toNat

/-- Model of `Dice._format_multiplier`. -/
def formatMultiplier (m : Int) : String :=
  if 0 ≤ m then "x" ++ natStr m.toNat else "/" ++ natStr (-m).toNat

/-- Model of `Dice._format_bonus`. -/
def formatBonus (b : Int) : String :=
  if 0 ≤ b then "+" ++ intStr b else intStr b

/-- Model of `Dice.__str__`: canonical dice-notation form. -/
def diceStr (d : Dice) : String :=
  if 0 < d.number then
    natStr d.number ++ "d" ++ natStr d.sides
      ++ (if d.multiplier ≠ 1 then formatMultiplier d.multiplier else "")
      ++ (if d.addition ≠ 0 then formatBonus d.addition else "")
  else intStr d.addition

/-! ## Parsing (`Dice._parse_string`)

The regex `([1-9]\d*)?d([1-9]\d*)([/x][1-9]\d*)?([+-]\d+)?` is matched with
`re.match`, i.e. anchored at the start of the string only; trailing
unmatched characters are ignored.  The regex is deterministic (each optional
group is forced by one character of lookahead), so a greedy left-to-right
scanner is equivalent to the engine's search. -/

/-- Stage 1 of the regex: the optional count group `([1-9]\d*)?` followed by
the mandatory literal `d`. -/
def readCount : List Char → Option (Option Nat × List Char)
  | [] => none
  | c :: rest =>
    if isPosDigit c then
      match readNat (digitVal c) rest with
      | (v, 'd' :: r2) => some (some v, r2)
      | _ => none
    else if c == 'd' then some (none, rest) else none

/-- Stage 2: the mandatory sides group `([1-9]\d*)`. -/
def readSides : List Char → Option (Nat × List Char)
  | [] => none
  | c :: rest => if isPosDigit c then some (readNat (digitVal c) rest) else none

/-- Stage 3: the optional multiplier group `([/x][1-9]\d*)?`; the Bool
records whether the operator is `x` (true) or `/` (false). -/
def readMult : List Char → Option (Bool × Nat) × List Char
  | x :: c :: rest =>
    if (x == 'x' || x == '/') && isPosDigit c then
      let p := readNat (digitVal c) rest
      (some (x == 'x', p.1), p.2)
    else (none, x :: c :: rest)
  | cs => (none, cs)

/-- Stage 4: the optional addend group `([+-]\d+)?`; the Bool records whether
the sign is `+`. -/
def readAddend : List Char → Option (Bool × Nat) × List Char
  | sg :: c :: rest =>
    if (sg == '+' || sg == '-') && isDigitC c then
      let p := readNat (digitVal c) rest
      (some (sg == '+', p.1), p.2)
    else (none, sg :: c :: rest)
  | cs => (none, cs)

/-- The four captured groups of the dice regex, already converted to numeric
values (as `Dice._parse_string` does immediately after matching). -/
structure DiceGroups where
  g1 : Option Nat
  g2 : Nat
  g3 : Option (Bool × Nat)
  g4 : Option (Bool × Nat)
deriving DecidableEq, Repr

/-- Model of `re.match` of the dice regex at the start of the string: the captured
groups and the unconsumed suffix; `none` models a failed match. -/
def matchDice (cs : List Char) : Option (DiceGroups × List Char) :=
  match readCount cs with
  | none => none
  | some (g1, r1) =>
    match readSides r1 with
    | none => none
    | some (g2, r2) =>
      let m := readMult r2
      let a := readAddend m.2
      some (⟨g1, g2, m.1, a.1⟩, a.2)

/-- Whether the dice regex matches the entire string. -/
def fullMatchDice (cs : List Char) : Bool :=
  match matchDice cs with
  | some (_, []) => true
  | _ => false

/-! ## Model of Python's `int(s)` and `float(s)` conversions -/

/-- ASCII whitespace stripped by Python's numeric conversions. -/
def isSpaceC (c : Char) : Bool :=
  c == ' ' || c == '\t' || c == '\n' || c == '\r' || c.toNat == 11 || c.toNat == 12

/-- Strip leading and trailing whitespace. -/
def trimWS (cs : List Char) : List Char :=
  ((cs.dropWhile isSpaceC).reverse.dropWhile isSpaceC).reverse

/-- Remainder of a Python digit run after its first digit: digits with single
underscores allowed only between digits. -/
def pyDigitsAux (acc : Nat) : List Char → Option Nat
  | [] => some acc
  | '_' :: c :: rest => if isDigitC c then pyDigitsAux (10 * acc + digitVal c) rest else none
  | c :: rest => if isDigitC c then pyDigitsAux (10 * acc + digitVal c) rest else none

/-- Python digit run `\d(_?\d)*`: the whole list must be consumed. -/
def pyDigits : List Char → Option Nat
  | c :: rest => if isDigitC c then pyDigitsAux (digitVal c) rest else none
  | [] => none

/-- Model of Python `int(s)` for strings: strip whitespace, optional sign,
then a digit run covering the rest of the string; `none` models the
`ValueError` raised otherwise. -/
def pyInt (cs : List Char) : Option Int :=
  match trimWS cs with
  | '+' :: rest => (pyDigits rest).map (fun n => (n : Int))
  | '-' :: rest => (pyDigits rest).map (fun n => -(n : Int))
  | t => (pyDigits t).map (fun n => (n : Int))

/-- Span of float digit-run characters (digits and underscores). -/
def uRunSplit (cs : List Char) : List Char × List Char :=
  (cs.takeWhile (fun c => isDigitC c || c == '_'),
   cs.dropWhile (fun c => isDigitC c || c == '_'))

/-- Remainder of a valid underscored digit run after its first digit. -/
def validURunAux : List Char → Bool
  | [] => true
  | '_' :: c :: rest => isDigitC c && validURunAux rest
  | c :: rest => isDigitC c && validURunAux rest

/-- A valid underscored digit run `\d(_?\d)*`, nonempty. -/
def validURun : List Char → Bool
  | [] => false
  | c :: rest => isDigitC c && validURunAux rest

/-- Value of an underscored digit run (underscores ignored). -/
def runVal (cs : List Char) : Nat := foldVal 0 (cs.filter isDigitC)

/-- Parse the optional exponent tail of a float literal; `some e` when the
remainder is empty or exactly an exponent clause. -/
def pyFloatExp : List Char → Option Int
  | [] => some 0
  | e :: rest =>
    if e == 'e' || e == 'E' then
      let p : Int × List Char :=
        match rest with
        | '+' :: r => (1, r)
        | '-' :: r => (-1, r)
        | r => (1, r)
      let q := uRunSplit p.2
      if validURun q.1 && q.2.isEmpty then some (p.1 * (runVal q.1 : Int)) else none
    else none

/-- Exact rational value of a decimal literal
`sgn * (ipVal + fpVal / 10^fpLen) * 10^e`, assembled with integer arithmetic
and one final normalisation so it evaluates by kernel reduction. -/
def decToQ (sgn : Int) (ipVal fpVal fpLen : Nat) (e : Int) : ℚ :=
  let num : Int := sgn * ((ipVal * 10 ^ fpLen + fpVal : Nat) : Int)
  if 0 ≤ e then mkRat (num * (10 : Int) ^ e.toNat) (10 ^ fpLen)
  else mkRat num (10 ^ fpLen * 10 ^ (-e).toNat)

/-- Model of Python `float(s)` for finite decimal literals (optional sign,
integer and/or fractional digit runs, optional decimal exponent), as an
exact rational.  Special values (`inf`, `nan`) are outside the model, and the
value is kept exact rather than rounded to binary64; rounding is monotone
and `1.0` is exactly representable, so the only comparison the simulator
performs (`≤ 1.0`) is unaffected for table data not within half an ulp
above 1. -/
def pyFloatQ (cs : List Char) : Option ℚ :=
  let t := trimWS cs
  let p : Int × List Char :=
    match t with
    | '+' :: r => (1, r)
    | '-' :: r => (-1, r)
    | r => (1, r)
  let ipr := uRunSplit p.2
  if !ipr.1.isEmpty && !validURun ipr.1 then none
  else
    match ipr.2 with
    | '.' :: r2 =>
      let fpr := uRunSplit r2
      if !fpr.1.isEmpty && !validURun fpr.1 then none
      else if ipr.1.isEmpty && fpr.1.isEmpty then none
      else
        match pyFloatExp fpr.2 with
        | some e =>
          some (decToQ p.1 (runVal ipr.1) (runVal fpr.1) (fpr.1.filter isDigitC).length e)
        | none => none
    | r1 =>
      if ipr.1.isEmpty then none
      else
        match pyFloatExp r1 with
        | some e => some (decToQ p.1 (runVal ipr.1) 0 0 e)
        | none => none

/-- Model of `Dice._parse_string`: on a regex match, extract the groups (count
defaulting to 1, `x` positive / `/` negative multiplier, signed addend); on a
failed match, fall back to `int(s)`, and on its failure to the zero spec. -/
def parseChars (cs : List Char) : Dice :=
  match matchDice cs with
  | some (g, _) =>
    { number := g.g1.getD 1
      sides := g.g2
      multiplier :=
        match g.g3 with
        | some (true, v) => (v : Int)
        | some (false, v) => -(v : Int)
        | none => 1
      addition :=
        match g.g4 with
        | some (true, v) => (v : Int)
        | some (false, v) => -(v : Int)
        | none => 0 }
  | none =>
    match pyInt cs with
    | some n => ⟨0, 0, 1, n⟩
    | none => ⟨0, 0, 1, 0⟩

/-- Model of the `Dice(string)` constructor path. -/
def parseString (s : String) : Dice := parseChars s.toList

/-- Model of `WildernessEncounterSim.str_to_int`: invalid strings give 0. -/
def strToInt (s : String) : Int := (pyInt s.toList).getD 0

/-- Model of `WildernessEncounterSim.str_to_dbl`: invalid strings give 0. -/
def strToDbl (s : String) : ℚ := (pyFloatQ s.toList).getD 0


/-! ## Table (`table.py`)

The CSV loader is out of scope; a `Table` wraps the loaded grid.  The
loader guarantees rectangularity and the presence of the header row/column;
the operations below do not re-validate that. -/

/-- Model of `Table`: 2D grid of strings; row 0 and column 0 are name headers. -/
structure Table where
  table : List (List String)
deriving DecidableEq, Repr

/-- Model of `Table.NULL_ENTRY`. -/
def NULL_ENTRY : String := "-"

/-- Python list indexing `l[i]`: negative indices count from the end;
`none` models an `IndexError`. -/
def pyIndex {α : Type} (l : List α) (i : Int) : Option α :=
  let j : Int := if 0 ≤ i then i else (l.length : Int) + i
  if 0 ≤ j then l.get? j.toNat else none

/-- The cell access `self.table[r][c]`. -/
def cellAt (t : Table) (r c : Int) : Option String :=
  (pyIndex t.table r).bind fun row => pyIndex row c

/-- Model of `Table.get_num_rows`. -/
def getNumRows (t : Table) : Int := (t.table.length : Int) - 1

/-- Model of `Table.get_num_cols`. -/
def getNumCols (t : Table) : Int :=
  match t.table with
  | [] => 0
  | r :: _ => (r.length : Int) - 1

/-- Scan loop of `Table.get_row_from_name`. -/
def getRowFromNameAux (name : String) : Nat → List (List String) → Int
  | _, [] => -1
  | i, row :: rest =>
    if row.head? = some name then (i : Int) else getRowFromNameAux name (i + 1) rest

/-- Model of `Table.get_row_from_name`: linear scan of the column-0 headers from row
1; -1 when absent.  Under the loader's rectangularity precondition every row
is nonempty, so `row.head?` is Python's `row[0]`. -/
def getRowFromName (t : Table) (name : String) : Int :=
  getRowFromNameAux name 1 t.table.tail

/-- Scan loop of `Table.get_col_from_name`. -/
def getColFromNameAux (name : String) : Nat → List String → Int
  | _, [] => -1
  | i, h :: rest => if h = name then (i : Int) else getColFromNameAux name (i + 1) rest

/-- Model of `Table.get_col_from_name`: linear scan of the row-0 headers from column
1; -1 when absent (the header row exists by the loader's precondition). -/
def getColFromName (t : Table) (name : String) : Int :=
  getColFromNameAux name 1 (t.table.headD []).tail

/-- Exceptions the table operations can raise: `indexError` for an
out-of-range cell access, `noEntry` for the `ValueError` raised when the
retry budget is exhausted. -/
inductive TableErr
  | indexError
  | noEntry
deriving DecidableEq, Repr

/-- Retry loop of `Table.get_random_entry_on_row`, with the remaining
attempt budget as fuel; each iteration draws a uniform column index and
rejects the null marker. -/
def randomEntryOnRowAux (t : Table) (rng : Rng) (index : Int) :
    Nat → Nat → Except TableErr (String × Nat)
  | _, 0 => .error .noEntry
  | i, fuel + 1 =>
    let roll := rng i (getNumCols t)
    match cellAt t index roll with
    | none => .error .indexError
    | some entry =>
      if entry ≠ NULL_ENTRY then .ok (entry, i + 1)
      else randomEntryOnRowAux t rng index (i + 1) fuel

/-- Model of `Table.get_random_entry_on_row` (`max_attempts = 1000`). -/
def getRandomEntryOnRow (t : Table) (rng : Rng) (index : Int) (i : Nat) :
    Except TableErr (String × Nat) :=
  randomEntryOnRowAux t rng index i 1000

/-- Retry loop of `Table.get_random_entry_on_col`. -/
def randomEntryOnColAux (t : Table) (rng : Rng) (index : Int) :
    Nat → Nat → Except TableErr (String × Nat)
  | _, 0 => .error .noEntry
  | i, fuel + 1 =>
    let roll := rng i (getNumRows t)
    match cellAt t roll index with
    | none => .error .indexError
    | some entry =>
      if entry ≠ NULL_ENTRY then .ok (entry, i + 1)
      else randomEntryOnColAux t rng index (i + 1) fuel

/-- Model of `Table.get_random_entry_on_col` (`max_attempts = 1000`). -/
def getRandomEntryOnCol (t : Table) (rng : Rng) (index : Int) (i : Nat) :
    Except TableErr (String × Nat) :=
  randomEntryOnColAux t rng index i 1000

/-- Model of `Table.get_entry`. -/
def getEntry (t : Table) (row col : Int) : Option String := cellAt t row col

/-! ## Encounter resolution (`wilderness_encounter_sim.py`) -/

def MONSTER_NUM_COL : Int := 1

def MONSTER_HDN_COL : Int := 12

def MONSTER_EHD_COL : Int := 13

/-- Model of `WildernessEncounterSim.sub_table_fixup`. -/
def subTableFixup (table sub : String) : String :=
  if sub = "Men" then
    if table = "Mountain" then "Men Mountain"
    else if table = "Desert" then "Men Desert"
    else if table = "River" then "Men Water"
    else "Men Typical"
  else sub

/-- The giant-animal renames and default return at the end of
`monster_fixup`. -/
def monsterRename (n : String) : String :=
  if n = "Giant Snake" then "Giant Snake, Constrictor"
  else if n = "Giant Beetle" then "Giant Beetle, Bombardier"
  else if n = "Giant Ant" then "Giant Ant, Worker"
  else if n = "Sea Monster" then "Sea Monster, Small"
  else if n = "Hydra" then "Hydra, 10 Heads"
  else if n = "Roc" then "Roc, Small"
  else n

/-- Model of `WildernessEncounterSim.monster_fixup`: "Giant" and "Dragon" are rolled
into a subtype with one d10/d6 draw; a roll outside the listed ranges falls
through to the remaining renames, as in the Python. -/
def monsterFixup (rng : Rng) (i : Nat) (name : String) : String × Nat :=
  if name = "Giant" then
    let r := rng i 10
    (if r ≤ 6 then "Giant, Hill"
     else if r = 7 then "Giant, Stone"
     else if r = 8 then "Giant, Frost"
     else if r = 9 then "Giant, Fire"
     else if r = 10 then "Giant, Cloud"
     else monsterRename name, i + 1)
  else if name = "Dragon" then
    let r := rng i 6
    (if r = 1 then "Dragon, White"
     else if r = 2 then "Dragon, Black"
     else if r = 3 then "Dragon, Green"
     else if r = 4 then "Dragon, Blue"
     else if r = 5 then "Dragon, Red"
     else if r = 6 then "Dragon, Gold"
     else monsterRename name, i + 1)
  else (monsterRename name, i)

/-- The NPC archetype base levels assigned by `handle_npc_type`
(0 = not an NPC). -/
def npcLevel (typeName : String) : Int :=
  if typeName = "Wizard" then 11
  else if typeName = "Necromancer" then 10
  else if typeName = "Lord" then 9
  else if typeName = "Superhero" then 8
  else if typeName = "Patriarch" then 8
  else if typeName = "Evil High Priest" then 8
  else 0

/-- Model of `WildernessEncounterSim.get_npc_entourage`: roll `Dice(2, 6)` for the
entourage count, then sum that many d4 draws. -/
def getNpcEntourage (rng : Rng) (i : Nat) : Int × Nat :=
  let p := rollDice ⟨2, 6, 1, 0⟩ rng i
  (sumDraws rng 4 p.2 p.1.toNat, p.2 + p.1.toNat)

/-- Model of `WildernessEncounterSim.handle_npc_type`. -/
def handleNpcType (rng : Rng) (i : Nat) (typeName : String) : Int × Nat :=
  if npcLevel typeName = 0 then (0, i)
  else
    let e := getNpcEntourage rng i
    (npcLevel typeName + e.1, e.2)

/-- Model of `WildernessEncounterSim.ehd_fixup`: fill in known null EHDs. -/
def ehdFixup (monName : String) (ehd : Int) : Int :=
  if ehd = 0 then
    if monName = "Dragon, Gold" then 40 else ehd
  else ehd

/-- Model of `WildernessEncounterSim.roll_encounter_by_monster`: the NPC
short-circuit, the monster-database row lookup (sentinel < 1 → result 0 and
a warning), the number-appearing roll, the EHD with fixup, and the
sweep-attack correction (`//= 4`, floor division) when the hit-dice number
is `<= 1.0`. -/
def rollEncounterByMonster (mt : Table) (rng : Rng) (i : Nat) (monsterName : String) :
    Except TableErr (Int × Nat) :=
  let npc := handleNpcType rng i monsterName
  if npc.1 > 0 then .ok npc
  else
    let monsterIndex := getRowFromName mt monsterName
    if monsterIndex < 1 then .ok (0, npc.2)
    else
      match getEntry mt monsterIndex MONSTER_NUM_COL with
      | none => .error .indexError
      | some numStr =>
        let p := rollDice (parseString numStr) rng npc.2
        match getEntry mt monsterIndex MONSTER_EHD_COL with
        | none => .error .indexError
        | some ehdStr =>
          let ehd := ehdFixup monsterName (strToInt ehdStr)
          match getEntry mt monsterIndex MONSTER_HDN_COL with
          | none => .error .indexError
          | some hdnStr =>
            .ok (if strToDbl hdnStr ≤ 1 then (p.1 * ehd).fdiv 4 else p.1 * ehd, p.2)

/-- Model of `WildernessEncounterSim.roll_encounter_by_sub_table`: unknown subtable
name (sentinel < 1) → result 0 and a warning; otherwise draw a monster name
from the column, apply `monster_fixup`, and resolve it. -/
def rollEncounterBySubTable (st mt : Table) (rng : Rng) (i : Nat) (tableName : String) :
    Except TableErr (Int × Nat) :=
  let colIndex := getColFromName st tableName
  if colIndex < 1 then .ok (0, i)
  else
    match getRandomEntryOnCol st rng colIndex i with
    | .error e => .error e
    | .ok (monsterName, i2) =>
      let q := monsterFixup rng i2 monsterName
      rollEncounterByMonster mt rng q.2 q.1


/-- Proposition that a character list does not start with a digit, so a
greedy digit run stops exactly before it. -/
def headNotDigit : List Char → Prop
  | [] => True
  | c :: _ => isDigitC c = false

/-! ## Concrete instances used by the example conjuncts and witnesses -/

/-- Scripted random source for the NPC example: 2d6 draws 1, 1 (entourage
count 2), then d4 draws 3, 4; clamped into `[1, sides]` so it satisfies the
randint contract. -/
def lordRng : Rng := fun i s =>
  max 1 (min s (if i = 0 then 1 else if i = 1 then 1 else if i = 2 then 3 else 4))

/-- Monster database with one row: number appearing "3" (a constant spec),
hit-dice number "0.5" (column 12), EHD "8" (column 13). -/
def sweepTable : Table :=
  ⟨[["Monster", "Number", "c2", "c3", "c4", "c5", "c6", "c7", "c8", "c9", "c10", "c11",
     "HDNum", "EHD"],
    ["TestMon", "3", "-", "-", "-", "-", "-", "-", "-", "-", "-", "-", "0.5", "8"]]⟩

/-- Monster database with one row whose hit-dice cell is blank. -/
def blankHdnTable : Table :=
  ⟨[["Monster", "Number", "c2", "c3", "c4", "c5", "c6", "c7", "c8", "c9", "c10", "c11",
     "HDNum", "EHD"],
    ["TestMon", "3", "-", "-", "-", "-", "-", "-", "-", "-", "-", "-", "", "8"]]⟩

/-! ## Helper lemmas -/

/-- Under the randint contract every sum of draws with at least one side is
nonnegative. -/
lemma sumDraws_nonneg (rng : Rng) (s : Int) (hs : 1 ≤ s) (hv : ValidRng rng) :
    ∀ (n : Nat) (i : Nat), 0 ≤ sumDraws rng s i n := by
  intro n
  induction n with
  | zero => intro i; simp [sumDraws]
  | succ k ih =>
    intro i
    have h1 := (hv i s hs).1
    have h2 := ih (i + 1)
    simp only [sumDraws]
    omega

/-- Flooring division of -1 by a positive integer is -1. -/
lemma neg_one_fdiv (b : Int) (hb : 1 ≤ b) : (-1 : Int).fdiv b = -1 := by
  obtain ⟨n, rfl⟩ : ∃ n : Nat, b = ((n + 1 : Nat) : Int) := ⟨(b - 1).toNat, by omega⟩
  show Int.negSucc (0 / (n + 1)) = Int.negSucc 0
  rw [Nat.zero_div]

/-! ## Claim theorems -/

/-- C1: for every spec with a negative multiplier and every raw dice sum
`s ≥ 1`, the adjusted roll used by `roll_dice`, `min_roll` and `max_roll`
equals `(s - 1) // |multiplier| + 1` plus the addend; and `"4d6/2"` parses
to `{count 4, sides 6, multiplier -2, addend 0}`, under which a raw sum of 7
adjusts to 4. -/
theorem C1_negative_multiplier_adjustment (d : Dice) (s : Int)
    (hm : d.multiplier < 0) (hs : 1 ≤ s) :
    adjustRoll d s = (s - 1).fdiv (-d.multiplier) + 1 + d.addition ∧
    minRoll d = adjustRoll d (d.number : Int) ∧
    maxRoll d = adjustRoll d ((d.number : Int) * (d.sides : Int)) ∧
    (∀ (rng : Rng) (i : Nat),
      (rollDice d rng i).1 = adjustRoll d (sumDraws rng (d.sides : Int) i d.number)) ∧
    parseString "4d6/2" = ⟨4, 6, -2, 0⟩ ∧
    adjustRoll ⟨4, 6, -2, 0⟩ 7 = 4 := by
  refine ⟨?_, rfl, rfl, fun rng i => rfl, by decide, by decide⟩
  unfold adjustRoll
  rw [if_neg (by omega)]

/-- Witness for C1 at the spec's example `{4, 6, -2, 0}`, raw sum 7. -/
theorem C1_negative_multiplier_adjustment_witness :
    adjustRoll ⟨4, 6, -2, 0⟩ 7 = ((7 : Int) - 1).fdiv 2 + 1 + 0 ∧
    minRoll ⟨4, 6, -2, 0⟩ = adjustRoll ⟨4, 6, -2, 0⟩ 4 ∧
    maxRoll ⟨4, 6, -2, 0⟩ = adjustRoll ⟨4, 6, -2, 0⟩ (4 * 6) ∧
    (∀ (rng : Rng) (i : Nat),
      (rollDice ⟨4, 6, -2, 0⟩ rng i).1 = adjustRoll ⟨4, 6, -2, 0⟩ (sumDraws rng 6 i 4)) ∧
    parseString "4d6/2" = ⟨4, 6, -2, 0⟩ ∧
    adjustRoll ⟨4, 6, -2, 0⟩ 7 = 4 :=
  C1_negative_multiplier_adjustment ⟨4, 6, -2, 0⟩ 7 (by decide) (by decide)

/-- C9: with `count = 0` the roll is exactly the addend for every
multiplier, negative ones included: the empty sum is 0 and
`(0 - 1) // |m| + 1 = 0` under floor division, so `_adjust_roll` needs (and
has) no special case for a zero sum. -/
theorem C9_zero_count_rolls_addend (d : Dice) (rng : Rng) (i : Nat)
    (h : d.number = 0) :
    (rollDice d rng i).1 = d.addition ∧ adjustRoll d 0 = d.addition := by
  have key : adjustRoll d 0 = d.addition := by
    unfold adjustRoll
    by_cases hm : 0 ≤ d.multiplier
    · rw [if_pos hm]; ring
    · rw [if_neg hm]
      have h1 : ((0 : Int) - 1).fdiv (-d.multiplier) = -1 := by
        have : ((0 : Int) - 1) = -1 := by ring
        rw [this]
        exact neg_one_fdiv _ (by omega)
      rw [h1]; ring
  constructor
  · show adjustRoll d (sumDraws rng (d.sides : Int) i d.number) = d.addition
    rw [h]
    exact key
  · exact key

/-- Witness for C9 at `{0, 0, -3, 7}`. -/
theorem C9_zero_count_rolls_addend_witness :
    (rollDice ⟨0, 0, -3, 7⟩ (fun _ _ => 0) 0).1 = 7 ∧ adjustRoll ⟨0, 0, -3, 7⟩ 0 = 7 :=
  C9_zero_count_rolls_addend ⟨0, 0, -3, 7⟩ (fun _ _ => 0) 0 rfl

/-- C7 counterexample: `"2d6xyz"` does not match the dice grammar as a whole
string and does not parse as an integer, yet `_parse_string` yields
`{2, 6, 1, 0}` rather than the zero spec: the regex is applied with
`re.match`, which anchors only at the start, so trailing garbage after a
matching head is ignored instead of triggering the fallback. -/
theorem C7_counterexample :
    fullMatchDice "2d6xyz".toList = false ∧
    pyInt "2d6xyz".toList = none ∧
    parseString "2d6xyz" = ⟨2, 6, 1, 0⟩ ∧
    parseString "2d6xyz" ≠ ⟨0, 0, 1, 0⟩ := by decide

/-- C7 amended: when the regex fails to match at the START of the string
(rather than: fails to match the whole string), parsing yields the constant
spec `{0, 0, 1, parsedInt}` when the entire string parses as a signed
integer and the zero spec `{0, 0, 1, 0}` otherwise; parsing is total and
never raises. -/
theorem C7_fallback_on_unmatched (s : String) (h : matchDice s.toList = none) :
    (∃ n, pyInt s.toList = some n ∧ parseString s = ⟨0, 0, 1, n⟩) ∨
    (pyInt s.toList = none ∧ parseString s = ⟨0, 0, 1, 0⟩) := by
  unfold parseString parseChars
  rw [h]
  cases hp : pyInt s.toList with
  | none => exact Or.inr ⟨rfl, rfl⟩
  | some n => exact Or.inl ⟨n, rfl, rfl⟩

/-- Witness for the amended C7 at `"abc"` (no match, no integer). -/
theorem C7_fallback_on_unmatched_witness :
    (∃ n, pyInt "abc".toList = some n ∧ parseString "abc" = ⟨0, 0, 1, n⟩) ∨
    (pyInt "abc".toList = none ∧ parseString "abc" = ⟨0, 0, 1, 0⟩) :=
  C7_fallback_on_unmatched "abc" (by decide)

/-- C8: an unknown subtable name (column lookup sentinel < 1) makes
`roll_encounter_by_sub_table` return 0, and an unknown monster name (row
lookup sentinel < 1, the NPC check having not fired) makes
`roll_encounter_by_monster` return 0; neither raises. -/
theorem C8_unknown_name_returns_zero (st mt : Table) (rng : Rng) (i j : Nat)
    (subName monName : String)
    (hsub : getColFromName st subName < 1)
    (hnpc : npcLevel monName = 0)
    (hmon : getRowFromName mt monName < 1) :
    rollEncounterBySubTable st mt rng i subName = .ok (0, i) ∧
    rollEncounterByMonster mt rng j monName = .ok (0, j) := by
  constructor
  · unfold rollEncounterBySubTable
    rw [if_pos hsub]
  · unfold rollEncounterByMonster handleNpcType
    rw [if_pos hnpc, if_neg (by norm_num), if_pos hmon]

/-- Witness for C8: names absent from concrete header rows. -/
theorem C8_unknown_name_returns_zero_witness :
    rollEncounterBySubTable ⟨[["", "A"]]⟩ ⟨[["Name", "Num"]]⟩ (fun _ _ => 1) 0 "Nope" =
      .ok (0, 0) ∧
    rollEncounterByMonster ⟨[["Name", "Num"]]⟩ (fun _ _ => 1) 5 "NoMon" = .ok (0, 5) :=
  C8_unknown_name_returns_zero ⟨[["", "A"]]⟩ ⟨[["Name", "Num"]]⟩ (fun _ _ => 1) 0 5
    "Nope" "NoMon" (by decide) (by decide) (by decide)

/-- Shared shape of a monster-database resolution that takes the
sweep-attack branch: name not an NPC, row found, all three cells present,
hit-dice value at most 1. -/
lemma monster_resolution_sweep (mt : Table) (rng : Rng) (i : Nat)
    (name numStr ehdStr hdnStr : String)
    (hnpc : npcLevel name = 0)
    (hidx : 1 ≤ getRowFromName mt name)
    (hnum : getEntry mt (getRowFromName mt name) MONSTER_NUM_COL = some numStr)
    (hehd : getEntry mt (getRowFromName mt name) MONSTER_EHD_COL = some ehdStr)
    (hhdn : getEntry mt (getRowFromName mt name) MONSTER_HDN_COL = some hdnStr)
    (hle : strToDbl hdnStr ≤ 1) :
    rollEncounterByMonster mt rng i name =
      .ok (((rollDice (parseString numStr) rng i).1 *
              ehdFixup name (strToInt ehdStr)).fdiv 4,
           i + (parseString numStr).number) := by
  unfold rollEncounterByMonster handleNpcType
  rw [if_pos hnpc]
  rw [if_neg (by norm_num), if_neg (by omega), hnum, hehd, hhdn]
  dsimp only
  rw [if_pos hle]
  rfl

/-- C2: in a monster-database resolution whose hit-dice cell parses to a
value at most 1, the returned total is
`(rolled count * effective difficulty) // 4` with integer floor division;
concretely, count 3 and EHD 8 with hit-dice number 0.5 give `24 // 4 = 6`. -/
theorem C2_sweep_attack_correction (mt : Table) (rng : Rng) (i : Nat)
    (name numStr ehdStr hdnStr : String)
    (hnpc : npcLevel name = 0)
    (hidx : 1 ≤ getRowFromName mt name)
    (hnum : getEntry mt (getRowFromName mt name) MONSTER_NUM_COL = some numStr)
    (hehd : getEntry mt (getRowFromName mt name) MONSTER_EHD_COL = some ehdStr)
    (hhdn : getEntry mt (getRowFromName mt name) MONSTER_HDN_COL = some hdnStr)
    (hle : strToDbl hdnStr ≤ 1) :
    rollEncounterByMonster mt rng i name =
      .ok (((rollDice (parseString numStr) rng i).1 *
              ehdFixup name (strToInt ehdStr)).fdiv 4,
           i + (parseString numStr).number) ∧
    rollEncounterByMonster sweepTable (fun _ _ => 1) 0 "TestMon" = .ok (6, 0) :=
  ⟨monster_resolution_sweep mt rng i name numStr ehdStr hdnStr
      hnpc hidx hnum hehd hhdn hle,
   by rfl⟩

/-- Witness for C2 at the concrete sweep table. -/
theorem C2_sweep_attack_correction_witness :
    (rollEncounterByMonster sweepTable (fun _ _ => 1) 0 "TestMon" =
      .ok (((rollDice (parseString "3") (fun _ _ => 1) 0).1 *
              ehdFixup "TestMon" (strToInt "8")).fdiv 4,
           0 + (parseString "3").number) ∧
     rollEncounterByMonster sweepTable (fun _ _ => 1) 0 "TestMon" = .ok (6, 0)) :=
  C2_sweep_attack_correction sweepTable (fun _ _ => 1) 0 "TestMon" "3" "8" "0.5"
    (by decide) (by decide) (by decide) (by decide) (by decide) (by decide)

/-- C10: a blank or unparseable hit-dice cell converts to 0.0, which passes
the `≤ 1.0` test, so the sweep-attack correction is applied to the total. -/
theorem C10_unparseable_hit_dice_sweeps (mt : Table) (rng : Rng) (i : Nat)
    (name numStr ehdStr hdnStr : String)
    (hnpc : npcLevel name = 0)
    (hidx : 1 ≤ getRowFromName mt name)
    (hnum : getEntry mt (getRowFromName mt name) MONSTER_NUM_COL = some numStr)
    (hehd : getEntry mt (getRowFromName mt name) MONSTER_EHD_COL = some ehdStr)
    (hhdn : getEntry mt (getRowFromName mt name) MONSTER_HDN_COL = some hdnStr)
    (hbad : pyFloatQ hdnStr.toList = none) :
    strToDbl hdnStr = 0 ∧
    rollEncounterByMonster mt rng i name =
      .ok (((rollDice (parseString numStr) rng i).1 *
              ehdFixup name (strToInt ehdStr)).fdiv 4,
           i + (parseString numStr).number) ∧
    strToDbl "" = 0 := by
  have h0 : strToDbl hdnStr = 0 := by unfold strToDbl; rw [hbad]; rfl
  exact ⟨h0,
    monster_resolution_sweep mt rng i name numStr ehdStr hdnStr
      hnpc hidx hnum hehd hhdn (by rw [h0]; norm_num),
    by decide⟩

/-- Witness for C10 at the table whose hit-dice cell is blank. -/
theorem C10_unparseable_hit_dice_sweeps_witness :
    strToDbl "" = 0 ∧
    rollEncounterByMonster blankHdnTable (fun _ _ => 1) 0 "TestMon" =
      .ok (((rollDice (parseString "3") (fun _ _ => 1) 0).1 *
              ehdFixup "TestMon" (strToInt "8")).fdiv 4,
           0 + (parseString "3").number) ∧
    strToDbl "" = 0 :=
  C10_unparseable_hit_dice_sweeps blankHdnTable (fun _ _ => 1) 0 "TestMon" "3" "8" ""
    (by decide) (by decide) (by decide) (by decide) (by decide) (by decide)

/-- C3: the fixed NPC archetypes (Wizard 11, Necromancer 10, Lord 9,
Superhero 8, Patriarch 8, Evil High Priest 8) bypass the monster database:
the result is the base level plus the entourage value, where the entourage
count is one 2d6 roll and its value the sum of that many d4 draws;
concretely, "Lord" with 2d6 draws 1, 1 (count 2) and d4 draws 3, 4 yields
`9 + 3 + 4 = 16`. -/
theorem C3_npc_short_circuit (mt : Table) (rng : Rng) (i : Nat) (name : String)
    (hv : ValidRng rng) (hn : 0 < npcLevel name) :
    npcLevel "Wizard" = 11 ∧ npcLevel "Necromancer" = 10 ∧ npcLevel "Lord" = 9 ∧
    npcLevel "Superhero" = 8 ∧ npcLevel "Patriarch" = 8 ∧
    npcLevel "Evil High Priest" = 8 ∧
    rollEncounterByMonster mt rng i name =
      .ok (npcLevel name + (getNpcEntourage rng i).1, (getNpcEntourage rng i).2) ∧
    getNpcEntourage rng i =
      (sumDraws rng 4 (i + 2) ((rng i 6 + rng (i + 1) 6).toNat),
        i + 2 + (rng i 6 + rng (i + 1) 6).toNat) ∧
    rollEncounterByMonster ⟨[]⟩ lordRng 0 "Lord" = .ok (16, 4) := by
  have hent : 0 ≤ (getNpcEntourage rng i).1 := by
    unfold getNpcEntourage
    exact sumDraws_nonneg rng 4 (by omega) hv _ _
  refine ⟨by decide, by decide, by decide, by decide, by decide, by decide, ?_, ?_, by rfl⟩
  · unfold rollEncounterByMonster handleNpcType
    rw [if_neg (by omega : ¬npcLevel name = 0)]
    rw [if_pos (by dsimp only; omega)]
  · have h1 : sumDraws rng 6 i 2 = rng i 6 + rng (i + 1) 6 := by
      show rng i 6 + (rng (i + 1) 6 + 0) = rng i 6 + rng (i + 1) 6
      omega
    simp [getNpcEntourage, rollDice, adjustRoll, h1]

/-- Witness for C3: the "Lord" archetype with the scripted source. -/
theorem C3_npc_short_circuit_witness :
    npcLevel "Wizard" = 11 ∧ npcLevel "Necromancer" = 10 ∧ npcLevel "Lord" = 9 ∧
    npcLevel "Superhero" = 8 ∧ npcLevel "Patriarch" = 8 ∧
    npcLevel "Evil High Priest" = 8 ∧
    rollEncounterByMonster ⟨[]⟩ lordRng 0 "Lord" =
      .ok (npcLevel "Lord" + (getNpcEntourage lordRng 0).1, (getNpcEntourage lordRng 0).2) ∧
    getNpcEntourage lordRng 0 =
      (sumDraws lordRng 4 (0 + 2) ((lordRng 0 6 + lordRng (0 + 1) 6).toNat),
        0 + 2 + (lordRng 0 6 + lordRng (0 + 1) 6).toNat) ∧
    rollEncounterByMonster ⟨[]⟩ lordRng 0 "Lord" = .ok (16, 4) :=
  C3_npc_short_circuit ⟨[]⟩ lordRng 0 "Lord"
    (by intro i s hs; simp only [lordRng]; omega) (by decide)

/-- Any successful draw from a row is a non-null data cell of that row (the
drawn column index lies in `[1, colCount]`, excluding the header column). -/
lemma randomEntryOnRowAux_ok (t : Table) (rng : Rng) (index : Int)
    (hv : ValidRng rng) (hc : 1 ≤ getNumCols t) :
    ∀ (fuel i : Nat) (e : String) (j : Nat),
      randomEntryOnRowAux t rng index i fuel = .ok (e, j) →
      e ≠ NULL_ENTRY ∧ ∃ c : Int, 1 ≤ c ∧ c ≤ getNumCols t ∧ cellAt t index c = some e := by
  intro fuel
  induction fuel with
  | zero => intro i e j h; exact absurd h (by simp [randomEntryOnRowAux])
  | succ n ih =>
    intro i e j h
    unfold randomEntryOnRowAux at h
    dsimp only at h
    split at h
    · exact absurd h (by simp)
    · rename_i entry heq
      split at h
      · rename_i hne
        simp only [Except.ok.injEq, Prod.mk.injEq] at h
        obtain ⟨he, hj⟩ := h
        subst he
        exact ⟨hne, rng i (getNumCols t), (hv i _ hc).1, (hv i _ hc).2, heq⟩
      · exact ih (i + 1) e j h

/-- Any successful draw from a column is a non-null data cell of that column
(the drawn row index lies in `[1, rowCount]`, excluding the header row). -/
lemma randomEntryOnColAux_ok (t : Table) (rng : Rng) (index : Int)
    (hv : ValidRng rng) (hr : 1 ≤ getNumRows t) :
    ∀ (fuel i : Nat) (e : String) (j : Nat),
      randomEntryOnColAux t rng index i fuel = .ok (e, j) →
      e ≠ NULL_ENTRY ∧ ∃ r : Int, 1 ≤ r ∧ r ≤ getNumRows t ∧ cellAt t r index = some e := by
  intro fuel
  induction fuel with
  | zero => intro i e j h; exact absurd h (by simp [randomEntryOnColAux])
  | succ n ih =>
    intro i e j h
    unfold randomEntryOnColAux at h
    dsimp only at h
    split at h
    · exact absurd h (by simp)
    · rename_i entry heq
      split at h
      · rename_i hne
        simp only [Except.ok.injEq, Prod.mk.injEq] at h
        obtain ⟨he, hj⟩ := h
        subst he
        exact ⟨hne, rng i (getNumRows t), (hv i _ hr).1, (hv i _ hr).2, heq⟩
      · exact ih (i + 1) e j h

/-- A successful row draw advances the call counter by at most the fuel. -/
lemma randomEntryOnRowAux_bound (t : Table) (rng : Rng) (index : Int) :
    ∀ (fuel i : Nat) (e : String) (j : Nat),
      randomEntryOnRowAux t rng index i fuel = .ok (e, j) → j ≤ i + fuel := by
  intro fuel
  induction fuel with
  | zero => intro i e j h; exact absurd h (by simp [randomEntryOnRowAux])
  | succ n ih =>
    intro i e j h
    unfold randomEntryOnRowAux at h
    dsimp only at h
    split at h
    · exact absurd h (by simp)
    · split at h
      · simp only [Except.ok.injEq, Prod.mk.injEq] at h
        omega
      · have := ih (i + 1) e j h
        omega

/-- A successful column draw advances the call counter by at most the fuel. -/
lemma randomEntryOnColAux_bound (t : Table) (rng : Rng) (index : Int) :
    ∀ (fuel i : Nat) (e : String) (j : Nat),
      randomEntryOnColAux t rng index i fuel = .ok (e, j) → j ≤ i + fuel := by
  intro fuel
  induction fuel with
  | zero => intro i e j h; exact absurd h (by simp [randomEntryOnColAux])
  | succ n ih =>
    intro i e j h
    unfold randomEntryOnColAux at h
    dsimp only at h
    split at h
    · exact absurd h (by simp)
    · split at h
      · simp only [Except.ok.injEq, Prod.mk.injEq] at h
        omega
      · have := ih (i + 1) e j h
        omega

/-- On a row whose data cells are all null, every iteration rejects and the
loop ends in the exhaustion error. -/
lemma randomEntryOnRowAux_allNull (t : Table) (rng : Rng) (index : Int)
    (row : List String)
    (hrow : pyIndex t.table index = some row)
    (hnull : ∀ c : Int, 1 ≤ c → c ≤ getNumCols t → pyIndex row c = some NULL_ENTRY)
    (hv : ValidRng rng) (hc : 1 ≤ getNumCols t) :
    ∀ (fuel i : Nat), randomEntryOnRowAux t rng index i fuel = .error .noEntry := by
  intro fuel
  induction fuel with
  | zero => intro i; rfl
  | succ n ih =>
    intro i
    have hcell : cellAt t index (rng i (getNumCols t)) = some NULL_ENTRY := by
      unfold cellAt
      rw [hrow]
      exact hnull _ (hv i _ hc).1 (hv i _ hc).2
    unfold randomEntryOnRowAux
    dsimp only
    rw [hcell]
    dsimp only
    rw [if_neg (by simp)]
    exact ih (i + 1)

/-- On a column whose data cells are all null, every iteration rejects and
the loop ends in the exhaustion error. -/
lemma randomEntryOnColAux_allNull (t : Table) (rng : Rng) (index : Int)
    (hnull : ∀ r : Int, 1 ≤ r → r ≤ getNumRows t → cellAt t r index = some NULL_ENTRY)
    (hv : ValidRng rng) (hr : 1 ≤ getNumRows t) :
    ∀ (fuel i : Nat), randomEntryOnColAux t rng index i fuel = .error .noEntry := by
  intro fuel
  induction fuel with
  | zero => intro i; rfl
  | succ n ih =>
    intro i
    have hcell : cellAt t (rng i (getNumRows t)) index = some NULL_ENTRY :=
      hnull _ (hv i _ hr).1 (hv i _ hr).2
    unfold randomEntryOnColAux
    dsimp only
    rw [hcell]
    dsimp only
    rw [if_neg (by simp)]
    exact ih (i + 1)

/-- C4: whenever a random row (column) draw returns a value, the value is a
cell of the designated row (column) at a 1-based data index — the drawn
index lies in `[1, count]`, so the header cell is excluded — and is never
the null marker, for every draw sequence meeting the randint contract. -/
theorem C4_random_entry_nonnull (t : Table) (rng : Rng) (rowIdx colIdx : Int)
    (i k : Nat) (e f : String) (j l : Nat)
    (hv : ValidRng rng) (hr : 1 ≤ getNumRows t) (hc : 1 ≤ getNumCols t)
    (hri : 1 ≤ rowIdx ∧ rowIdx ≤ getNumRows t)
    (hci : 1 ≤ colIdx ∧ colIdx ≤ getNumCols t) :
    (getRandomEntryOnRow t rng rowIdx i = .ok (e, j) →
      e ≠ NULL_ENTRY ∧ ∃ c : Int, 1 ≤ c ∧ c ≤ getNumCols t ∧ cellAt t rowIdx c = some e) ∧
    (getRandomEntryOnCol t rng colIdx k = .ok (f, l) →
      f ≠ NULL_ENTRY ∧ ∃ r : Int, 1 ≤ r ∧ r ≤ getNumRows t ∧ cellAt t r colIdx = some f) :=
  ⟨fun h => randomEntryOnRowAux_ok t rng rowIdx hv hc 1000 i e j h,
   fun h => randomEntryOnColAux_ok t rng colIdx hv hr 1000 k f l h⟩

/-- Witness for C4 on a 2-by-2 table whose data cell is "V". -/
theorem C4_random_entry_nonnull_witness :
    (getRandomEntryOnRow ⟨[["", "A"], ["r", "V"]]⟩ (fun _ _ => 1) 1 0 = .ok ("V", 1) →
      "V" ≠ NULL_ENTRY ∧ ∃ c : Int, 1 ≤ c ∧ c ≤ getNumCols ⟨[["", "A"], ["r", "V"]]⟩ ∧
        cellAt ⟨[["", "A"], ["r", "V"]]⟩ 1 c = some "V") ∧
    (getRandomEntryOnCol ⟨[["", "A"], ["r", "V"]]⟩ (fun _ _ => 1) 1 0 = .ok ("V", 1) →
      "V" ≠ NULL_ENTRY ∧ ∃ r : Int, 1 ≤ r ∧ r ≤ getNumRows ⟨[["", "A"], ["r", "V"]]⟩ ∧
        cellAt ⟨[["", "A"], ["r", "V"]]⟩ r 1 = some "V") :=
  C4_random_entry_nonnull ⟨[["", "A"], ["r", "V"]]⟩ (fun _ _ => 1) 1 1 0 0 "V" "V" 1 1
    (by intro i s hs; exact ⟨le_refl 1, hs⟩) (by decide) (by decide)
    (by constructor <;> decide) (by constructor <;> decide)

/-- C5: the rejection-sampling loops perform at most 1000 draws (a caller
index never advances past `start + 1000`), and on a row/column whose data
cells are all the null marker they end in the distinct exhaustion error
`noEntry` — the raised `ValueError`, an exception distinct both from the
-1 unknown-name sentinel (which is an ordinary return value, not an error)
and from the index error. -/
theorem C5_bounded_rejection (t : Table) (row : List String) (rng : Rng)
    (rowIdx colIdx : Int) (i k : Nat)
    (hv : ValidRng rng) (hr : 1 ≤ getNumRows t) (hc : 1 ≤ getNumCols t)
    (hrow : pyIndex t.table rowIdx = some row)
    (hnullRow : ∀ c : Int, 1 ≤ c → c ≤ getNumCols t → pyIndex row c = some NULL_ENTRY)
    (hnullCol : ∀ r : Int, 1 ≤ r → r ≤ getNumRows t → cellAt t r colIdx = some NULL_ENTRY) :
    getRandomEntryOnRow t rng rowIdx i = .error .noEntry ∧
    getRandomEntryOnCol t rng colIdx k = .error .noEntry ∧
    TableErr.noEntry ≠ TableErr.indexError ∧
    (∀ (t2 : Table) (rng2 : Rng) (idx : Int) (m : Nat) (e : String) (j : Nat),
      getRandomEntryOnRow t2 rng2 idx m = .ok (e, j) → j ≤ m + 1000) ∧
    (∀ (t2 : Table) (rng2 : Rng) (idx : Int) (m : Nat) (e : String) (j : Nat),
      getRandomEntryOnCol t2 rng2 idx m = .ok (e, j) → j ≤ m + 1000) :=
  ⟨randomEntryOnRowAux_allNull t rng rowIdx row hrow hnullRow hv hc 1000 i,
   randomEntryOnColAux_allNull t rng colIdx hnullCol hv hr 1000 k,
   by decide,
   fun t2 rng2 idx m e j h => randomEntryOnRowAux_bound t2 rng2 idx 1000 m e j h,
   fun t2 rng2 idx m e j h => randomEntryOnColAux_bound t2 rng2 idx 1000 m e j h⟩

/-- Witness for C5 on a 2-by-2 table whose only data cell is null. -/
theorem C5_bounded_rejection_witness :
    getRandomEntryOnRow ⟨[["", "A"], ["r", "-"]]⟩ (fun _ _ => 1) 1 0 = .error .noEntry ∧
    getRandomEntryOnCol ⟨[["", "A"], ["r", "-"]]⟩ (fun _ _ => 1) 1 0 = .error .noEntry ∧
    TableErr.noEntry ≠ TableErr.indexError ∧
    (∀ (t2 : Table) (rng2 : Rng) (idx : Int) (m : Nat) (e : String) (j : Nat),
      getRandomEntryOnRow t2 rng2 idx m = .ok (e, j) → j ≤ m + 1000) ∧
    (∀ (t2 : Table) (rng2 : Rng) (idx : Int) (m : Nat) (e : String) (j : Nat),
      getRandomEntryOnCol t2 rng2 idx m = .ok (e, j) → j ≤ m + 1000) :=
  C5_bounded_rejection ⟨[["", "A"], ["r", "-"]]⟩ ["r", "-"] (fun _ _ => 1) 1 1 0 0
    (by intro i s hs; exact ⟨le_refl 1, hs⟩) (by decide) (by decide) (by decide)
    (by intro c h1 h2
        have hc1 : c = 1 := by
          have : getNumCols ⟨[["", "A"], ["r", "-"]]⟩ = 1 := by decide
          omega
        subst hc1; rfl)
    (by intro r h1 h2
        have hr1 : r = 1 := by
          have : getNumRows ⟨[["", "A"], ["r", "-"]]⟩ = 1 := by decide
          omega
        subst hr1; rfl)

/-! ## Digit-printing lemmas for the round-trip proof -/

/-- Character code of a digit character. -/
lemma digitChar_toNat (d : Nat) (h : d < 10) : (digitChar d).toNat = 48 + d := by
  interval_cases d <;> rfl

/-- Digit characters are digits. -/
lemma isDigitC_digitChar (d : Nat) (h : d < 10) : isDigitC (digitChar d) = true := by
  simp only [isDigitC, digitChar_toNat d h, Bool.and_eq_true, decide_eq_true_eq]
  omega

/-- Nonzero digit characters are in the class `[1-9]`. -/
lemma isPosDigit_digitChar (d : Nat) (h1 : 1 ≤ d) (h2 : d < 10) :
    isPosDigit (digitChar d) = true := by
  simp only [isPosDigit, digitChar_toNat d h2, Bool.and_eq_true, decide_eq_true_eq]
  omega

/-- Value of a digit character. -/
lemma digitVal_digitChar (d : Nat) (h : d < 10) : digitVal (digitChar d) = d := by
  simp only [digitVal, digitChar_toNat d h]
  omega

/-- A digit in the class `[1-9]` is a digit. -/
lemma isDigitC_of_isPosDigit (c : Char) (h : isPosDigit c = true) : isDigitC c = true := by
  simp only [isPosDigit, Bool.and_eq_true, decide_eq_true_eq] at h
  simp only [isDigitC, Bool.and_eq_true, decide_eq_true_eq]
  omega

/-- Every natural number is below `10 ^ (n + 1)` (enough fuel for printing). -/
lemma lt_ten_pow (n : Nat) : n < 10 ^ (n + 1) := by
  induction n with
  | zero => norm_num
  | succ k ih =>
    have h1 : 0 < 10 ^ (k + 1) := by positivity
    rw [pow_succ]
    omega

/-- All characters produced by the digit printer are digits. -/
lemma natDigitsF_all_digits :
    ∀ (fuel n : Nat) (acc : List Char), n < 10 ^ (fuel + 1) →
      (∀ c ∈ acc, isDigitC c = true) → ∀ c ∈ natDigitsF fuel n acc, isDigitC c = true := by
  intro fuel
  induction fuel with
  | zero =>
    intro n acc hlt hacc c hc
    simp only [natDigitsF] at hc
    rcases List.mem_cons.mp hc with hc | hc
    · subst hc; exact isDigitC_digitChar n (by simpa using hlt)
    · exact hacc c hc
  | succ f ih =>
    intro n acc hlt hacc c hc
    unfold natDigitsF at hc
    by_cases hn : n < 10
    · rw [if_pos hn] at hc
      rcases List.mem_cons.mp hc with hc | hc
      · subst hc; exact isDigitC_digitChar n hn
      · exact hacc c hc
    · rw [if_neg hn] at hc
      have hdiv : n / 10 < 10 ^ (f + 1) := by
        rw [Nat.div_lt_iff_lt_mul (by norm_num)]
        calc n < 10 ^ (f + 1 + 1) := hlt
        _ = 10 ^ (f + 1) * 10 := by rw [pow_succ]
      refine ih (n / 10) (digitChar (n % 10) :: acc) hdiv ?_ c hc
      intro c2 hc2
      rcases List.mem_cons.mp hc2 with hc2 | hc2
      · subst hc2; exact isDigitC_digitChar _ (Nat.mod_lt _ (by norm_num))
      · exact hacc c2 hc2

/-- For a positive number the printed digits start with a `[1-9]` digit. -/
lemma natDigitsF_head_pos :
    ∀ (fuel n : Nat) (acc : List Char), n < 10 ^ (fuel + 1) → 1 ≤ n →
      ∃ c rest, natDigitsF fuel n acc = c :: rest ∧ isPosDigit c = true := by
  intro fuel
  induction fuel with
  | zero =>
    intro n acc hlt hpos
    exact ⟨digitChar n, acc, rfl, isPosDigit_digitChar n hpos (by simpa using hlt)⟩
  | succ f ih =>
    intro n acc hlt hpos
    unfold natDigitsF
    by_cases hn : n < 10
    · rw [if_pos hn]
      exact ⟨digitChar n, acc, rfl, isPosDigit_digitChar n hpos hn⟩
    · rw [if_neg hn]
      have hdiv : n / 10 < 10 ^ (f + 1) := by
        rw [Nat.div_lt_iff_lt_mul (by norm_num)]
        calc n < 10 ^ (f + 1 + 1) := hlt
        _ = 10 ^ (f + 1) * 10 := by rw [pow_succ]
      exact ih (n / 10) _ hdiv (by omega)

/-- Folding the printed digits of `n` onto an accumulator appends `n` in
decimal position. -/
lemma foldVal_natDigitsF :
    ∀ (fuel n : Nat) (acc : List Char) (a : Nat), n < 10 ^ (fuel + 1) →
      foldVal a (natDigitsF fuel n acc) = foldVal (a * 10 ^ digitCount n + n) acc := by
  intro fuel
  induction fuel with
  | zero =>
    intro n acc a hlt
    have hn : n < 10 := by simpa using hlt
    show foldVal (10 * a + digitVal (digitChar n)) acc = _
    rw [digitVal_digitChar n hn, digitCount, if_pos hn]
    congr 1
    omega
  | succ f ih =>
    intro n acc a hlt
    unfold natDigitsF
    by_cases hn : n < 10
    · rw [if_pos hn]
      show foldVal (10 * a + digitVal (digitChar n)) acc = _
      rw [digitVal_digitChar n hn, digitCount, if_pos hn]
      congr 1
      omega
    · rw [if_neg hn]
      have hdiv : n / 10 < 10 ^ (f + 1) := by
        rw [Nat.div_lt_iff_lt_mul (by norm_num)]
        calc n < 10 ^ (f + 1 + 1) := hlt
        _ = 10 ^ (f + 1) * 10 := by rw [pow_succ]
      rw [ih (n / 10) _ a hdiv]
      show foldVal (10 * (a * 10 ^ digitCount (n / 10) + n / 10) + digitVal (digitChar (n % 10))) acc = _
      rw [digitVal_digitChar _ (Nat.mod_lt _ (by norm_num))]
      have hdc : digitCount n = digitCount (n / 10) + 1 := by
        rw [digitCount]
        rw [if_neg hn]
      rw [hdc, pow_succ, ← mul_assoc]
      congr 1
      have hmod := Nat.div_add_mod n 10
      generalize a * 10 ^ digitCount (n / 10) = B at *
      omega

/-- Appending strings concatenates their character lists. -/
lemma toList_app (a b : String) : (a ++ b).toList = a.toList ++ b.toList := rfl

/-- A greedy digit read consumes exactly an all-digit run when the remainder
does not start with a digit. -/
lemma readNat_append (xs : List Char) :
    ∀ (ys : List Char) (acc : Nat), (∀ c ∈ xs, isDigitC c = true) → headNotDigit ys →
      readNat acc (xs ++ ys) = (foldVal acc xs, ys) := by
  induction xs with
  | nil =>
    intro ys acc _ hys
    cases ys with
    | nil => rfl
    | cons y ytl =>
      show readNat acc (y :: ytl) = (acc, y :: ytl)
      unfold readNat
      rw [if_neg (by simp [show isDigitC y = false from hys])]
  | cons x xtl ih =>
    intro ys acc hxs hys
    have hx : isDigitC x = true := hxs x (List.mem_cons_self x xtl)
    show readNat acc (x :: (xtl ++ ys)) = _
    unfold readNat
    rw [if_pos (by simp [hx])]
    rw [ih ys (10 * acc + digitVal x) (fun c hc => hxs c (List.mem_cons_of_mem x hc)) hys]
    rfl

/-- Reading the printed digits of a positive `n` (followed by a non-digit
remainder) yields `n` back: the head digit is in `[1-9]` and the greedy read
of the tail reconstructs the value. -/
lemma readNat_natDigits (n : Nat) (hn : 1 ≤ n) (ys : List Char) (hys : headNotDigit ys) :
    ∃ c ds, natDigits n = c :: ds ∧ isPosDigit c = true ∧
      readNat (digitVal c) (ds ++ ys) = (n, ys) := by
  obtain ⟨c, ds, hnd0, hpos⟩ := natDigitsF_head_pos n n [] (lt_ten_pow n) hn
  have hnd : natDigits n = c :: ds := hnd0
  have hdig : ∀ x ∈ natDigits n, isDigitC x = true :=
    natDigitsF_all_digits n n [] (lt_ten_pow n) (by intro c2 hc2; cases hc2)
  refine ⟨c, ds, hnd, hpos, ?_⟩
  have h1 : readNat (digitVal c) (ds ++ ys) = (foldVal (digitVal c) ds, ys) := by
    refine readNat_append ds ys (digitVal c) ?_ hys
    intro x hx
    exact hdig x (by rw [hnd]; exact List.mem_cons_of_mem c hx)
  have h2 : foldVal 0 (natDigits n) = n := by
    have h3 := foldVal_natDigitsF n n [] 0 (lt_ten_pow n)
    show foldVal 0 (natDigitsF n n []) = n
    rw [h3]
    show 0 * 10 ^ digitCount n + n = n
    omega
  rw [hnd] at h2
  have h4 : foldVal (digitVal c) ds = n := by
    have : foldVal (10 * 0 + digitVal c) ds = n := h2
    simpa using this
  rw [h1, h4]

/-- Stage 1 on a printed positive count followed by `d`. -/
lemma readCount_digits (n : Nat) (hn : 1 ≤ n) (rest : List Char) :
    readCount (natDigits n ++ ('d' :: rest)) = some (some n, rest) := by
  obtain ⟨c, ds, hnd, hpos, hread⟩ :=
    readNat_natDigits n hn ('d' :: rest) (by show isDigitC 'd' = false; decide)
  rw [hnd]
  show readCount (c :: (ds ++ 'd' :: rest)) = _
  unfold readCount
  dsimp only
  rw [if_pos hpos, hread]
  rfl

/-- Stage 2 on printed positive sides followed by a non-digit remainder. -/
lemma readSides_digits (n : Nat) (hn : 1 ≤ n) (ys : List Char) (hys : headNotDigit ys) :
    readSides (natDigits n ++ ys) = some (n, ys) := by
  obtain ⟨c, ds, hnd, hpos, hread⟩ := readNat_natDigits n hn ys hys
  rw [hnd]
  show readSides (c :: (ds ++ ys)) = _
  unfold readSides
  dsimp only
  rw [if_pos hpos, hread]

/-- Stage 3 consumes `x` followed by printed positive digits. -/
lemma readMult_x (n : Nat) (hn : 1 ≤ n) (ys : List Char) (hys : headNotDigit ys) :
    readMult ('x' :: (natDigits n ++ ys)) = (some (true, n), ys) := by
  obtain ⟨c, ds, hnd, hpos, hread⟩ := readNat_natDigits n hn ys hys
  rw [hnd]
  show readMult ('x' :: c :: (ds ++ ys)) = _
  unfold readMult
  dsimp only
  rw [if_pos (by simp [hpos])]
  simp [hread]

/-- Stage 3 consumes `/` followed by printed positive digits. -/
lemma readMult_div (n : Nat) (hn : 1 ≤ n) (ys : List Char) (hys : headNotDigit ys) :
    readMult ('/' :: (natDigits n ++ ys)) = (some (false, n), ys) := by
  obtain ⟨c, ds, hnd, hpos, hread⟩ := readNat_natDigits n hn ys hys
  rw [hnd]
  show readMult ('/' :: c :: (ds ++ ys)) = _
  unfold readMult
  dsimp only
  rw [if_pos (by simp [hpos])]
  simp [hread]

/-- Stage 3 matches empty when the head is not a multiplier operator. -/
lemma readMult_skip (cs : List Char)
    (h : ∀ (c : Char) (tl : List Char), cs = c :: tl → (c == 'x' || c == '/') = false) :
    readMult cs = (none, cs) := by
  cases cs with
  | nil => rfl
  | cons c tl =>
    cases tl with
    | nil => rfl
    | cons c2 tl2 =>
      unfold readMult
      dsimp only
      rw [if_neg (by simp [h c (c2 :: tl2) rfl])]

/-- Stage 4 consumes `+` followed by printed positive digits. -/
lemma readAddend_plus (n : Nat) (hn : 1 ≤ n) :
    readAddend ('+' :: natDigits n) = (some (true, n), []) := by
  obtain ⟨c, ds, hnd, hpos, hread⟩ := readNat_natDigits n hn [] trivial
  rw [List.append_nil] at hread
  rw [hnd]
  show readAddend ('+' :: c :: ds) = _
  unfold readAddend
  dsimp only
  rw [if_pos (by simp [isDigitC_of_isPosDigit c hpos])]
  simp [hread]

/-- Stage 4 consumes `-` followed by printed positive digits. -/
lemma readAddend_minus (n : Nat) (hn : 1 ≤ n) :
    readAddend ('-' :: natDigits n) = (some (false, n), []) := by
  obtain ⟨c, ds, hnd, hpos, hread⟩ := readNat_natDigits n hn [] trivial
  rw [List.append_nil] at hread
  rw [hnd]
  show readAddend ('-' :: c :: ds) = _
  unfold readAddend
  dsimp only
  rw [if_pos (by simp [isDigitC_of_isPosDigit c hpos])]
  simp [hread]

/-- Assembled match of the regex on a canonical notation string: count,
`d`, sides, then whatever stages 3 and 4 give on the suffix. -/
lemma matchDice_build (n s : Nat) (hn : 1 ≤ n) (hs : 1 ≤ s) (M A : List Char)
    (hMA : headNotDigit (M ++ A)) (g3 g4 : Option (Bool × Nat))
    (hmult : readMult (M ++ A) = (g3, A)) (hadd : readAddend A = (g4, [])) :
    matchDice (natDigits n ++ ('d' :: (natDigits s ++ (M ++ A)))) =
      some (⟨some n, s, g3, g4⟩, []) := by
  unfold matchDice
  rw [readCount_digits n hn]
  dsimp only
  rw [readSides_digits s hs (M ++ A) hMA]
  dsimp only
  rw [hmult]
  dsimp only
  rw [hadd]

/-- C6: for every spec satisfying the data-model invariant (positive count,
at least one side, nonzero multiplier), parsing the canonical formatted
string yields the spec back: `parse(format(spec)) == spec`. -/
theorem C6_parse_format_roundtrip (d : Dice)
    (hn : 0 < d.number) (hsd : 1 ≤ d.sides) (hm : d.multiplier ≠ 0) :
    parseString (diceStr d) = d := by
  obtain ⟨n, s, m, a⟩ := d
  dsimp only at hn hsd hm
  have hds : diceStr ⟨n, s, m, a⟩ =
      natStr n ++ "d" ++ natStr s
        ++ (if m ≠ 1 then formatMultiplier m else "")
        ++ (if a ≠ 0 then formatBonus a else "") := by
    unfold diceStr
    dsimp only
    rw [if_pos hn]
  have hlist : ∀ M A : List Char,
      (if m ≠ 1 then formatMultiplier m else "").toList = M →
      (if a ≠ 0 then formatBonus a else "").toList = A →
      (diceStr ⟨n, s, m, a⟩).toList = natDigits n ++ ('d' :: (natDigits s ++ (M ++ A))) := by
    intro M A hM hA
    rw [hds]
    simp only [toList_app]
    rw [hM, hA]
    show natDigits n ++ ['d'] ++ natDigits s ++ M ++ A = _
    simp [List.append_assoc]
  have hAfact : ∃ (A : List Char) (g4 : Option (Bool × Nat)),
      (if a ≠ 0 then formatBonus a else "").toList = A ∧
      readAddend A = (g4, []) ∧ headNotDigit A ∧
      (∀ c tl, A = c :: tl → (c == 'x' || c == '/') = false) ∧
      (match g4 with
       | some (true, v) => (v : Int)
       | some (false, v) => -(v : Int)
       | none => 0) = a := by
    rcases lt_trichotomy a 0 with ha | ha | ha
    · refine ⟨'-' :: natDigits (-a).toNat, some (false, (-a).toNat), ?_, ?_, ?_, ?_, ?_⟩
      · rw [if_pos (by omega)]
        unfold formatBonus
        rw [if_neg (by omega)]
        unfold intStr
        rw [if_pos ha]
        rfl
      · exact readAddend_minus _ (by omega)
      · show isDigitC '-' = false
        decide
      · intro c tl hc
        injection hc with h1 h2
        subst h1
        decide
      · show -(((-a).toNat : Int)) = a
        omega
    · refine ⟨[], none, ?_, rfl, trivial, ?_, ?_⟩
      · rw [if_neg (by omega)]
        rfl
      · intro c tl hc
        exact absurd hc (by simp)
      · show (0 : Int) = a
        omega
    · refine ⟨'+' :: natDigits a.toNat, some (true, a.toNat), ?_, ?_, ?_, ?_, ?_⟩
      · rw [if_pos (by omega)]
        unfold formatBonus
        rw [if_pos (by omega)]
        unfold intStr
        rw [if_neg (by omega)]
        rfl
      · exact readAddend_plus _ (by omega)
      · show isDigitC '+' = false
        decide
      · intro c tl hc
        injection hc with h1 h2
        subst h1
        decide
      · show ((a.toNat : Nat) : Int) = a
        omega
  have hMfact : ∃ (M : List Char) (g3 : Option (Bool × Nat)),
      (if m ≠ 1 then formatMultiplier m else "").toList = M ∧
      (∀ A : List Char, headNotDigit A →
        (∀ c tl, A = c :: tl → (c == 'x' || c == '/') = false) →
        readMult (M ++ A) = (g3, A) ∧ headNotDigit (M ++ A)) ∧
      (match g3 with
       | some (true, v) => (v : Int)
       | some (false, v) => -(v : Int)
       | none => 1) = m := by
    rcases lt_trichotomy m 0 with hmlt | hm0 | hmgt
    · refine ⟨'/' :: natDigits (-m).toNat, some (false, (-m).toNat), ?_, ?_, ?_⟩
      · rw [if_pos (by omega)]
        unfold formatMultiplier
        rw [if_neg (by omega)]
        rfl
      · intro A hA hAop
        constructor
        · show readMult ('/' :: (natDigits (-m).toNat ++ A)) = _
          exact readMult_div _ (by omega) A hA
        · show isDigitC '/' = false
          decide
      · show -(((-m).toNat : Int)) = m
        omega
    · exact absurd hm0 hm
    · by_cases hm1 : m = 1
      · refine ⟨[], none, ?_, ?_, ?_⟩
        · rw [if_neg (by omega)]
          rfl
        · intro A hA hAop
          exact ⟨readMult_skip A hAop, hA⟩
        · show (1 : Int) = m
          omega
      · refine ⟨'x' :: natDigits m.toNat, some (true, m.toNat), ?_, ?_, ?_⟩
        · rw [if_pos (by omega)]
          unfold formatMultiplier
          rw [if_pos (by omega)]
          rfl
        · intro A hA hAop
          constructor
          · show readMult ('x' :: (natDigits m.toNat ++ A)) = _
            exact readMult_x _ (by omega) A hA
          · show isDigitC 'x' = false
            decide
        · show ((m.toNat : Nat) : Int) = m
          omega
  obtain ⟨A, g4, hAeq, hAread, hAnd, hAop, hAval⟩ := hAfact
  obtain ⟨M, g3, hMeq, hMall, hMval⟩ := hMfact
  obtain ⟨hMread, hMAnd⟩ := hMall A hAnd hAop
  have hlist2 := hlist M A hMeq hAeq
  have hmatch := matchDice_build n s hn hsd M A hMAnd g3 g4 hMread hAread
  unfold parseString parseChars
  rw [hlist2, hmatch]
  dsimp only
  rw [hMval, hAval]
  rfl

/-- Witness for C6 at the spec's example `{2, 8, 2, -1}`. -/
theorem C6_parse_format_roundtrip_witness :
    parseString (diceStr ⟨2, 8, 2, -1⟩) = ⟨2, 8, 2, -1⟩ :=
  C6_parse_format_roundtrip ⟨2, 8, 2, -1⟩ (by decide) (by decide) (by decide)
